import Mathlib

/-!
Verification of the `data_parallel_tutorial` notebook.

The notebook defines a `RandomDataset` of 100 random vectors of dimension 5,
a `Model` whose forward pass applies a linear layer `fc : Linear(5, 2)` and
prints the input and output extents, wraps the model in `nn.DataParallel`
when several devices are available, and iterates over a
`DataLoader(batch_size=30, shuffle=True)`, printing the caller-side extents
after each batch.

Tensors are embedded as lists of rows over `Int` (the numeric values are
irrelevant to every property considered; only shapes and data flow matter).
The external framework pieces (random generation, the DataParallel
scatter/gather, the batching loader) are modelled from the spec, as noted on
each definition.
-/

namespace DPT

/-- `input_size = 5` from the parameters cell. -/
def input_size : Nat := 5

/-- `output_size = 2` from the parameters cell. -/
def output_size : Nat := 2

/-- `batch_size = 30` from the parameters cell. -/
def batch_size : Nat := 30

/-- `data_size = 100` from the parameters cell. -/
def data_size : Nat := 100

/-- A sample vector (one row of a 2-D tensor). -/
abbrev Vec := List Int

/-- A 2-D tensor: a list of rows. -/
abbrev Mat := List Vec

/-- `t.size()` of a 2-D tensor: (number of rows, width of the first row). -/
def shape (m : Mat) : Nat × Nat := (m.length, (m.headD []).length)

/-- Modelled from the spec: `torch.randn(length, size)` produces `length`
random vectors of dimension `size`; the external random values are supplied
by the generator `g`. -/
def randn (g : Nat → Nat → Int) (length size : Nat) : Mat :=
  (List.range length).map (fun i => (List.range size).map (fun j => g i j))

/-- `RandomDataset`: `__init__` stores `self.len = length` and
`self.data = torch.randn(length, size)`. -/
structure RandomDataset where
  len : Nat
  data : Mat

/-- `RandomDataset.__init__(size, length)` with external random source `g`. -/
def RandomDataset.init (g : Nat → Nat → Int) (size length : Nat) : RandomDataset :=
  { len := length, data := randn g length size }

/-- `RandomDataset.__getitem__(index)`: `return self.data[index]`
(`none` embeds the out-of-range failure). -/
def RandomDataset.getitem (d : RandomDataset) (index : Nat) : Option Vec :=
  d.data[index]?

/-- `RandomDataset.__len__()`: `return self.len`. -/
def RandomDataset.pyLen (d : RandomDataset) : Nat := d.len

/-- The operations the dataset exposes after construction
(`__getitem__` and `__len__`). -/
inductive DSOp where
  | getitem (index : Nat)
  | lenQuery

/-- One dataset operation: its body only reads fields, so the resulting
state is the translation of a method with no assignment. -/
def RandomDataset.step (d : RandomDataset) : DSOp → RandomDataset
  | .getitem _ => d
  | .lenQuery => d

/-- Run a sequence of dataset operations from state `d`. -/
def RandomDataset.runOps (d : RandomDataset) (ops : List DSOp) : RandomDataset :=
  ops.foldl RandomDataset.step d

/-- `chunkAux bs fuel xs`: split `xs` into consecutive chunks of `bs`
elements (the last chunk possibly shorter); `fuel` makes the recursion
structural and is instantiated with `xs.length`. -/
def chunkAux (bs : Nat) : Nat → Mat → List Mat
  | 0, _ => []
  | _ + 1, [] => []
  | fuel + 1, x :: xs => ((x :: xs).take bs) :: chunkAux bs fuel ((x :: xs).drop bs)

/-- Split a list of rows into consecutive chunks of `bs` rows. -/
def chunkList (bs : Nat) (xs : Mat) : List Mat :=
  if bs = 0 then [] else chunkAux bs xs.length xs

/-- The chunk sizes produced by `chunkAux`, computed from the total length
alone. -/
def chunkSizesAux (bs : Nat) : Nat → Nat → List Nat
  | 0, _ => []
  | _ + 1, 0 => []
  | fuel + 1, n + 1 => min bs (n + 1) :: chunkSizesAux bs fuel (n + 1 - bs)

/-- Modelled from the spec: the loader
`DataLoader(dataset=RandomDataset(input_size, 100), batch_size=batch_size,
shuffle=True)` yields the dataset's samples in an externally chosen shuffled
order `items`, grouped into consecutive batches of `batch_size` (the default
keeps a final shorter batch). -/
def rand_loader (items : Mat) : List Mat :=
  chunkList batch_size items

/-- `nn.Linear(input_size, output_size)` on one sample: row `j` of the
output is the dot product of weight row `j` with the sample plus bias
entry `j`. -/
def linear (W : Mat) (bias : Vec) (x : Vec) : Vec :=
  (W.zip bias).map (fun rb => ((rb.1.zip x).map (fun p => p.1 * p.2)).sum + rb.2)

/-- `self.fc(input)` on a batch: `nn.Linear` applies the same affine map to
every row of the input. -/
def fcForward (W : Mat) (bias : Vec) (input : Mat) : Mat :=
  input.map (linear W bias)

/-- A line of the printed transcript: either the in-model report
`"\tIn Model: input size ... output size ..."` or the caller-side report
`"Outside: input size ... output_size ..."`, each carrying the two extents
of the input and of the output. -/
inductive Line where
  | inModel (inRows inCols outRows outCols : Nat)
  | outside (inRows inCols outRows outCols : Nat)
deriving DecidableEq

/-- Whether a transcript line is an in-model report. -/
def Line.isInModel : Line → Bool
  | .inModel _ _ _ _ => true
  | .outside _ _ _ _ => false

/-- Whether a transcript line is a caller-side report. -/
def Line.isOutside : Line → Bool
  | .inModel _ _ _ _ => false
  | .outside _ _ _ _ => true

/-- `Model.forward(input)`: computes `output = self.fc(input)`, prints the
in-model line, and returns `output`. The result is the pair (returned
value, printed lines). -/
def modelForwardRun (W : Mat) (bias : Vec) (input : Mat) : Mat × List Line :=
  let output := fcForward W bias input
  (output,
   [Line.inModel (shape input).1 (shape input).2 (shape output).1 (shape output).2])

/-- The value returned by `Model.forward(input)`. -/
def modelForward (W : Mat) (bias : Vec) (input : Mat) : Mat :=
  (modelForwardRun W bias input).1

/-- Modelled from the spec: the DataParallel scatter splits an incoming
batch along dim 0 into per-device slices of `ceil(n / k)` rows each
(`torch.chunk` semantics), `k` being the device count. -/
def scatter (k : Nat) (input : Mat) : List Mat :=
  chunkList ((input.length + k - 1) / k) input

/-- Modelled from the spec: the DataParallel forward scatters the batch,
runs one replica of `Model.forward` per slice, and gathers the per-device
outputs by concatenation along dim 0 before returning them to the caller.
The printed lines of all replicas accumulate. -/
def dataParallelRun (k : Nat) (W : Mat) (bias : Vec) (input : Mat) : Mat × List Line :=
  let results := (scatter k input).map (modelForwardRun W bias)
  ((results.map Prod.fst).flatten, (results.map Prod.snd).flatten)

/-- The value the caller receives from the wrapped model. -/
def dataParallelForward (k : Nat) (W : Mat) (bias : Vec) (input : Mat) : Mat :=
  (dataParallelRun k W bias input).1

/-- The lines printed while one batch goes through the wrapped model and the
caller then prints the outside report: in-model lines first, then the
caller-side line with the extents after recombination. -/
def batchTranscript (k : Nat) (W : Mat) (bias : Vec) (batch : Mat) : List Line :=
  let r := dataParallelRun k W bias batch
  r.2 ++ [Line.outside (shape batch).1 (shape batch).2 (shape r.1).1 (shape r.1).2]

/-- The mutable state of the batch loop: the model parameters and the
transcript printed so far. -/
structure LoopState where
  W : Mat
  bias : Vec
  transcript : List Line

/-- One iteration of `for data in rand_loader`: evaluate the (wrapped)
model on the batch and print; no gradient computation, no parameter
update. -/
def runBatch (k : Nat) (s : LoopState) (batch : Mat) : LoopState :=
  { s with transcript := s.transcript ++ batchTranscript k s.W s.bias batch }

/-- The whole batch loop over the loader's batches. -/
def runLoop (k : Nat) (s : LoopState) (batches : List Mat) : LoopState :=
  batches.foldl (runBatch k) s

/-- A fixed all-zero random source, used for concrete instances. -/
def g0 : Nat → Nat → Int := fun _ _ => 0

/-- A concrete weight matrix of shape (2, 5). -/
def W0 : Mat := [[1, 0, 0, 0, 0], [0, 1, 0, 0, 0]]

/-- A concrete bias vector of length 2. -/
def bias0 : Vec := [3, 4]

/-- A concrete one-sample batch of width 5. -/
def m0 : Mat := [[1, 2, 3, 4, 5]]

/-- A concrete 30-sample batch of width 5. -/
def batch30 : Mat := List.replicate 30 (List.replicate 5 (0 : Int))

/-- The dataset's samples in one possible shuffled order (the identity
order, which the shuffle may produce). -/
def items0 : Mat := (RandomDataset.init g0 input_size data_size).data

/-! ### Helper lemmas -/

theorem chunkAux_map_length (bs : Nat) (fuel : Nat) (xs : Mat) :
    (chunkAux bs fuel xs).map List.length = chunkSizesAux bs fuel xs.length := by
  induction fuel generalizing xs with
  | zero => cases xs <;> simp [chunkAux, chunkSizesAux]
  | succ f ih =>
    cases xs with
    | nil => simp [chunkAux, chunkSizesAux]
    | cons x xs =>
      simp [chunkAux, chunkSizesAux, ih, List.length_take, List.length_drop]

theorem chunkList_map_length (bs : Nat) (xs : Mat) :
    (chunkList bs xs).map List.length
      = if bs = 0 then [] else chunkSizesAux bs xs.length xs.length := by
  unfold chunkList
  split <;> simp [chunkAux_map_length]

theorem chunkSizesAux_sum (bs : Nat) (hbs : 1 ≤ bs) :
    ∀ fuel n, n ≤ fuel → (chunkSizesAux bs fuel n).sum = n := by
  intro fuel
  induction fuel with
  | zero =>
    intro n hn
    have h0 : n = 0 := Nat.le_zero.mp hn
    subst h0
    simp [chunkSizesAux]
  | succ f ih =>
    intro n hn
    cases n with
    | zero => simp [chunkSizesAux]
    | succ m =>
      have h2 : m + 1 - bs ≤ f := by omega
      have hsum := ih (m + 1 - bs) h2
      simp [chunkSizesAux, hsum]
      omega

theorem chunkList_nil (bs : Nat) : chunkList bs [] = [] := by
  unfold chunkList
  split <;> rfl

theorem scatter_sum (k : Nat) (hk : 1 ≤ k) (input : Mat) :
    ((scatter k input).map List.length).sum = input.length := by
  unfold scatter
  rcases Nat.eq_zero_or_pos input.length with h0 | hpos
  · have hnil : input = [] := List.length_eq_zero.mp h0
    subst hnil
    simp [chunkList_nil]
  · have hbs : 1 ≤ (input.length + k - 1) / k := by
      rw [Nat.le_div_iff_mul_le (by omega)]
      omega
    rw [chunkList_map_length, if_neg (by omega)]
    exact chunkSizesAux_sum _ hbs _ _ le_rfl

theorem dataParallelForward_eq (k : Nat) (W : Mat) (bias : Vec) (input : Mat) :
    dataParallelForward k W bias input
      = ((scatter k input).map (fcForward W bias)).flatten := by
  simp [dataParallelForward, dataParallelRun, modelForwardRun, List.map_map]
  rfl

theorem fcForward_length (W : Mat) (bias : Vec) (input : Mat) :
    (fcForward W bias input).length = input.length := by
  simp [fcForward]

theorem linear_length (W : Mat) (bias : Vec) (x : Vec) :
    (linear W bias x).length = min W.length bias.length := by
  simp [linear]

theorem runOps_id (d : RandomDataset) (ops : List DSOp) :
    RandomDataset.runOps d ops = d := by
  induction ops generalizing d with
  | nil => rfl
  | cons op ops ih =>
    have hstep : RandomDataset.step d op = d := by cases op <;> rfl
    simp [RandomDataset.runOps, List.foldl] at ih ⊢
    rw [hstep]
    exact ih d

/-! ### Claims -/

/-- Claim C1: when the model is wrapped in the replication wrapper and two
devices are available, every incoming batch of 30 samples is split along the
batch dimension into exactly two slices of 15 and 15 samples, each processed
by one device replica. -/
theorem c1_two_device_split (W : Mat) (bias : Vec) (batch : Mat)
    (h : batch.length = 30) :
    ∃ s₀ s₁, scatter 2 batch = [s₀, s₁] ∧ s₀.length = 15 ∧ s₁.length = 15 ∧
      dataParallelForward 2 W bias batch
        = modelForward W bias s₀ ++ modelForward W bias s₁ := by
  have hmap : (scatter 2 batch).map List.length = [15, 15] := by
    unfold scatter
    rw [chunkList_map_length, h]
    norm_num
    decide
  cases hsc : scatter 2 batch with
  | nil => rw [hsc] at hmap; simp at hmap
  | cons s₀ t =>
    cases t with
    | nil => rw [hsc] at hmap; simp at hmap
    | cons s₁ t2 =>
      cases t2 with
      | cons s₂ t3 => rw [hsc] at hmap; simp at hmap
      | nil =>
        rw [hsc] at hmap
        simp at hmap
        refine ⟨s₀, s₁, rfl, hmap.1, hmap.2, ?_⟩
        rw [dataParallelForward_eq, hsc]
        simp [modelForward, modelForwardRun]

/-- Claim C1 witness: a concrete 30-sample batch. -/
theorem c1_witness :
    batch30.length = 30 ∧
    ∃ s₀ s₁, scatter 2 batch30 = [s₀, s₁] ∧ s₀.length = 15 ∧ s₁.length = 15 ∧
      dataParallelForward 2 W0 bias0 batch30
        = modelForward W0 bias0 s₀ ++ modelForward W0 bias0 s₁ :=
  ⟨by decide, c1_two_device_split W0 bias0 batch30 (by decide)⟩

/-- Claim C2 counterexample: over the 100-sample dataset with batch size 30,
the loader's fourth batch has 10 samples, so not every batch contains
exactly 30 samples. -/
theorem c2_counterexample :
    ¬ ∀ b ∈ rand_loader items0, b.length = batch_size := by
  decide

/-- Claim C2 (amended): for every shuffled order of the 100-sample dataset,
the loader yields four batches of sizes 30, 30, 30 and 10: every batch but
the last contains exactly 30 samples, and the last contains the remaining
10. -/
theorem c2_batch_sizes (g : Nat → Nat → Int) (items : Mat)
    (hperm : items.Perm (RandomDataset.init g input_size data_size).data) :
    (rand_loader items).map List.length = [30, 30, 30, 10] := by
  have hlen : items.length = 100 := by
    have hpl := hperm.length_eq
    simpa [RandomDataset.init, randn, data_size] using hpl
  unfold rand_loader
  rw [chunkList_map_length, hlen]
  norm_num [batch_size]
  decide

/-- Claim C2 witness: the identity shuffle order. -/
theorem c2_witness :
    items0.Perm (RandomDataset.init g0 input_size data_size).data ∧
    (rand_loader items0).map List.length = [30, 30, 30, 10] :=
  ⟨List.Perm.refl _, c2_batch_sizes g0 items0 (List.Perm.refl _)⟩

/-- Claim C3: for every batch passed through the wrapped model, the
per-device slice sizes sum to the caller's batch size, and the recombined
output returned to the caller has first extent equal to the input batch's
first extent and second extent equal to the output dimension 2. -/
theorem c3_shape_invariant (k : Nat) (W : Mat) (bias : Vec) (input : Mat)
    (hk : 1 ≤ k) (hW : W.length = output_size) (hb : bias.length = output_size) :
    ((scatter k input).map List.length).sum = input.length ∧
    (dataParallelForward k W bias input).length = input.length ∧
    ∀ row ∈ dataParallelForward k W bias input, row.length = output_size := by
  have hsum := scatter_sum k hk input
  refine ⟨hsum, ?_, ?_⟩
  · rw [dataParallelForward_eq, List.length_flatten, List.map_map]
    have hcomp : (scatter k input).map (List.length ∘ fcForward W bias)
        = (scatter k input).map List.length := by
      simp [Function.comp, fcForward_length]
    rw [hcomp]
    exact hsum
  · intro row hrow
    rw [dataParallelForward_eq] at hrow
    rw [List.mem_flatten] at hrow
    obtain ⟨l, hl, hrl⟩ := hrow
    rw [List.mem_map] at hl
    obtain ⟨s, _, hfs⟩ := hl
    subst hfs
    rw [fcForward, List.mem_map] at hrl
    obtain ⟨x, _, hx⟩ := hrl
    subst hx
    rw [linear_length, hW, hb, Nat.min_self]

/-- Claim C3 witness: two devices, concrete (2, 5) weights and a one-sample
batch. -/
theorem c3_witness :
    (1 ≤ 2 ∧ W0.length = output_size ∧ bias0.length = output_size) ∧
    (((scatter 2 m0).map List.length).sum = m0.length ∧
     (dataParallelForward 2 W0 bias0 m0).length = m0.length ∧
     ∀ row ∈ dataParallelForward 2 W0 bias0 m0, row.length = output_size) :=
  ⟨⟨by decide, by decide, by decide⟩,
   c3_shape_invariant 2 W0 bias0 m0 (by decide) (by decide) (by decide)⟩

/-- Claim C4: the linear transformation is applied uniformly to every
sample: the i-th row of the model's output is the linear layer applied to
the i-th row of the input, and applying the model to a batch equals mapping
the same affine map over its samples independently. -/
theorem c4_rowwise (W : Mat) (bias : Vec) (input : Mat) (i : Nat) :
    (modelForward W bias input)[i]? = input[i]?.map (linear W bias) ∧
    modelForward W bias input = input.map (linear W bias) := by
  constructor
  · simp [modelForward, modelForwardRun, fcForward, List.getElem?_map]
  · rfl

/-- Claim C5: in the transcript of one processed batch, every line before
the last is an in-model report and the last line is the caller-side report,
so no caller-side line precedes that batch's in-model lines. -/
theorem c5_transcript_order (k : Nat) (W : Mat) (bias : Vec) (batch : Mat) :
    (batchTranscript k W bias batch).dropLast.all Line.isInModel = true ∧
    (batchTranscript k W bias batch).getLast?.map Line.isOutside = some true := by
  constructor
  · unfold batchTranscript
    rw [List.dropLast_concat, List.all_eq_true]
    intro l hl
    simp [dataParallelRun, List.mem_flatten, List.mem_map, modelForwardRun] at hl
    obtain ⟨s, _, hls⟩ := hl
    rw [hls]
    rfl
  · unfold batchTranscript
    rw [List.getLast?_concat]
    rfl

/-- Claim C6: the dataset is generated once at construction and indexed by
position: after any sequence of dataset operations, the state is the one
built at construction and the item accessor returns the i-th vector created
there. -/
theorem c6_dataset_immutable (g : Nat → Nat → Int) (size length : Nat)
    (ops : List DSOp) (i : Nat) :
    RandomDataset.runOps (RandomDataset.init g size length) ops
      = RandomDataset.init g size length ∧
    RandomDataset.getitem (RandomDataset.runOps (RandomDataset.init g size length) ops) i
      = (randn g length size)[i]? := by
  have hid := runOps_id (RandomDataset.init g size length) ops
  exact ⟨hid, by rw [hid]; rfl⟩

/-- Claim C7: the dataset class has exactly two trivial accessors: the
length accessor returns the length given at construction, and the item
accessor returns a stored vector, a member of the data built at
construction. -/
theorem c7_thin_accessors (g : Nat → Nat → Int) (size length : Nat) :
    (RandomDataset.init g size length).pyLen = length ∧
    ∀ (d : RandomDataset) (i : Nat) (v : Vec), d.getitem i = some v →
      d.getitem i = d.data[i]? ∧ v ∈ d.data := by
  refine ⟨rfl, ?_⟩
  intro d i v h
  exact ⟨rfl, List.getElem?_mem h⟩

/-- Claim C7 witness: a concrete dataset of two 3-vectors. -/
theorem c7_witness :
    (RandomDataset.init g0 3 2).getitem 0 = some [0, 0, 0] ∧
    ((RandomDataset.init g0 3 2).getitem 0
        = (RandomDataset.init g0 3 2).data[0]? ∧
      [0, 0, 0] ∈ (RandomDataset.init g0 3 2).data) :=
  ⟨by decide, (c7_thin_accessors g0 3 2).2 (RandomDataset.init g0 3 2) 0 [0, 0, 0] (by decide)⟩

/-- Claim C8: running the whole batch loop leaves the model parameters (the
linear layer's weight and bias) unchanged; the loop only evaluates forward
passes and extends the transcript. -/
theorem c8_params_unchanged (k : Nat) (s : LoopState) (batches : List Mat) :
    (runLoop k s batches).W = s.W ∧ (runLoop k s batches).bias = s.bias := by
  induction batches generalizing s with
  | nil => exact ⟨rfl, rfl⟩
  | cons b bs ih =>
    have hstep := ih (runBatch k s b)
    simpa [runLoop, List.foldl, runBatch] using hstep

/-- Claim C9: the stored data has exactly `length` rows, so every index
below the length accessor's value is in range: the item accessor succeeds
and returns a vector of dimension `size`. -/
theorem c9_index_safety (g : Nat → Nat → Int) (size length : Nat) :
    (RandomDataset.init g size length).data.length = length ∧
    ∀ i : Nat, i < (RandomDataset.init g size length).pyLen →
      ∃ v, (RandomDataset.init g size length).getitem i = some v ∧ v.length = size := by
  have hdata : (randn g length size).length = length := by simp [randn]
  refine ⟨hdata, ?_⟩
  intro i hi
  have hi' : i < length := hi
  refine ⟨(List.range size).map (fun j => g i j), ?_, by simp⟩
  show (randn g length size)[i]? = _
  simp [randn, List.getElem?_map, List.getElem?_range, hi']

/-- Claim C9 witness: a concrete dataset of two 3-vectors, index 1. -/
theorem c9_witness :
    1 < (RandomDataset.init g0 3 2).pyLen ∧
    ∃ v, (RandomDataset.init g0 3 2).getitem 1 = some v ∧ v.length = 3 :=
  ⟨by decide, (c9_index_safety g0 3 2).2 1 (by decide)⟩

/-- Claim C10: the model's forward pass, as a function from input tensor to
returned tensor, equals the bare linear layer: printing only adds transcript
lines and does not alter the returned value. -/
theorem c10_forward_refines_linear (W : Mat) (bias : Vec) (input : Mat) :
    (modelForwardRun W bias input).1 = fcForward W bias input ∧
    (modelForwardRun W bias input).2.all Line.isInModel = true := by
  exact ⟨rfl, rfl⟩

end DPT
